import Mathlib

/-!
Shallow embedding of the assignment-solver backend route module
(`backend/routes/solve.js`, which also bundles the Mongoose model
`models/Solution.js`) and of the frontend polling loop
(`frontend/src/pages/DashboardNew.tsx`, `pollSolutionStatus`).

Modelling conventions:
* MongoDB documents are Lean structures; the collection is a `List Solution`
  and `findOne` is `List.find?` (first match in insertion order; the route
  queries by `_id`, which is unique in practice, so theorems that need it
  take a `Nodup` hypothesis on the ids).
* JS strings are `String`; a field that may be `null`/`undefined` is an
  `Option`; JS truthiness of such a field is `jsTruthy` below
  (`none`, `some ""` are falsy, every other string is truthy).
* Node `Buffer`s are `String`s (the byte payloads the claims talk about are
  only ever tested for emptiness / containment).
* `Date.now()` values and ObjectIds are `Nat` parameters supplied by the
  caller of each handler.
-/

namespace AssignmentSolver

/-- The `status` enum of the Mongoose `solutionSchema`:
`enum: ['processing', 'completed', 'failed']`. -/
inductive Status where
  | processing
  | completed
  | failed
deriving DecidableEq

/-- One entry of the `materials` array of the schema
(`{ fileId: String, fileName: String, fileUrl: String }`); each field is
optional because the route fills it from an optional chain. -/
structure SolMaterial where
  fileId : Option String
  fileName : Option String
  fileUrl : Option String
deriving DecidableEq

/-- The persisted `Solution` document of `models/Solution.js`.
`solutionText` and `solutionPdf` default to `null` (`none` here);
`solvedAt` defaults to the creation time; `processingTime` defaults to 0. -/
structure Solution where
  id : Nat
  userId : Nat
  assignmentId : String
  assignmentTitle : String
  courseId : String
  courseName : String
  solutionText : Option String
  solutionPdf : Option String
  solvedAt : Nat
  status : Status
  processingTime : Nat
  materials : List SolMaterial
deriving DecidableEq

/-- A material object of the POST /solve request body.  The route reads
`m.driveFile?.driveFile?.id`, `.title` and `.alternateLink`; the double
optional chain is flattened into three optional fields (`none` when any
link of the chain is missing). -/
structure ReqMaterial where
  driveFileId : Option String
  driveFileTitle : Option String
  driveFileLink : Option String
deriving DecidableEq

/-- Body of a POST /solve request.  Each field is `none` when absent from
the JSON body. -/
structure SolveRequest where
  assignmentId : Option String
  assignmentTitle : Option String
  courseId : Option String
  courseName : Option String
  materials : Option (List ReqMaterial)
deriving DecidableEq

/-- The authenticated user attached by the `auth` middleware.  The route
reads `user._id` and `user.googleTokens.accessToken`; the optional chain
`user.googleTokens && user.googleTokens.accessToken` is flattened into one
optional token field. -/
structure ReqUser where
  id : Nat
  googleAccessToken : Option String
deriving DecidableEq

/-- JS truthiness of a string-or-missing value: `undefined`, `null` and the
empty string are falsy, every other string is truthy. -/
def jsTruthy : Option String → Bool
  | none => false
  | some s => s ≠ ""

/-- Static `solutionSchema.statics.isAssignmentSolved`: the first document
matching `{ userId, assignmentId, status: 'completed' }`, if any. -/
def isAssignmentSolved (store : List Solution) (userId : Nat)
    (assignmentId : String) : Option Solution :=
  store.find? fun s =>
    s.userId = userId ∧ s.assignmentId = assignmentId ∧ s.status = Status.completed

/-- Response of the POST /solve handler, by status code and JSON shape. -/
inductive SolveResponse where
  /-- 400 with `error: 'Missing required fields: ...'`. -/
  | badRequest
  /-- 401 with `error: 'Google authentication required ...'`. -/
  | unauthorized
  /-- 200 with `success: true, message: 'Assignment already solved',
  solutionId, alreadySolved: true`. -/
  | alreadySolved (solutionId : Nat)
  /-- 200 with `success: true, message: 'Assignment solving started',
  solutionId, status`. -/
  | started (solutionId : Nat) (status : Status)
deriving DecidableEq

/-- The `materials?.map(...) || []` mapping of the POST /solve handler. -/
def mapMaterials (ms : Option (List ReqMaterial)) : List SolMaterial :=
  (ms.getD []).map fun m =>
    { fileId := m.driveFileId
      fileName := m.driveFileTitle
      fileUrl := m.driveFileLink }

/-- The POST /solve handler (`router.post('/solve', ...)`).  `newId` is the
ObjectId Mongo would assign to a freshly created document and `now` the
current time (`solvedAt` default).  Returns the HTTP response, the store
after the handler ran, and whether `solveAssignmentAsync` was started
(i.e. whether a solver subprocess gets spawned). -/
def postSolve (user : ReqUser) (req : SolveRequest) (store : List Solution)
    (newId : Nat) (now : Nat) : SolveResponse × List Solution × Bool :=
  if ¬ (jsTruthy req.assignmentId ∧ jsTruthy req.assignmentTitle ∧
        jsTruthy req.courseId ∧ jsTruthy req.courseName) then
    (SolveResponse.badRequest, store, false)
  else
    match isAssignmentSolved store user.id (req.assignmentId.getD "") with
    | some existing => (SolveResponse.alreadySolved existing.id, store, false)
    | none =>
      if ¬ jsTruthy user.googleAccessToken then
        (SolveResponse.unauthorized, store, false)
      else
        let sol : Solution :=
          { id := newId
            userId := user.id
            assignmentId := req.assignmentId.getD ""
            assignmentTitle := req.assignmentTitle.getD ""
            courseId := req.courseId.getD ""
            courseName := req.courseName.getD ""
            solutionText := none
            solutionPdf := none
            solvedAt := now
            status := Status.processing
            processingTime := 0
            materials := mapMaterials req.materials }
        (SolveResponse.started newId Status.processing, store ++ [sol], true)

/-- Response of GET /solution/:solutionId. -/
inductive SolutionResponse where
  /-- 404 with `error: 'Solution not found'`. -/
  | notFound
  /-- 200 with `success: true` and the listed solution fields. -/
  | found (id : Nat) (assignmentTitle : String) (courseName : String)
      (status : Status) (solutionText : Option String)
      (solvedAt : Nat) (processingTime : Nat)
deriving DecidableEq

/-- `Solution.findOne({ _id: solutionId, userId: user._id })`. -/
def findOwned (store : List Solution) (userId solutionId : Nat) :
    Option Solution :=
  store.find? fun s => s.id = solutionId ∧ s.userId = userId

/-- The GET /solution/:solutionId handler. -/
def getSolutionRoute (store : List Solution) (userId solutionId : Nat) :
    SolutionResponse :=
  match findOwned store userId solutionId with
  | none => SolutionResponse.notFound
  | some s =>
      SolutionResponse.found s.id s.assignmentTitle s.courseName s.status
        s.solutionText s.solvedAt s.processingTime

/-- Response of GET /solution/:solutionId/pdf. -/
inductive PdfResponse where
  /-- 404 with `error: 'Solution not found'`. -/
  | notFound
  /-- 400 with `error: 'Solution PDF not available'`. -/
  | notAvailable
  /-- 200: `res.send(solution.solutionPdf)` with the two headers set. -/
  | sendPdf (contentType : String) (filename : String) (bytes : String)
deriving DecidableEq

/-- The GET /solution/:solutionId/pdf handler.  An empty `Buffer` is truthy
in JS, so the guard `!solution.solutionPdf || solution.solutionPdf.length
=== 0` is: the field is `null`, or the stored buffer is empty. -/
def getSolutionPdfRoute (store : List Solution) (userId solutionId : Nat) :
    PdfResponse :=
  match findOwned store userId solutionId with
  | none => PdfResponse.notFound
  | some s =>
      if s.status ≠ Status.completed then PdfResponse.notAvailable
      else
        match s.solutionPdf with
        | none => PdfResponse.notAvailable
        | some bytes =>
            if bytes.length = 0 then PdfResponse.notAvailable
            else
              PdfResponse.sendPdf "application/pdf"
                (s.assignmentTitle ++ "_solution.pdf") bytes

/-- JS `String.prototype.trim()`: strip leading and trailing whitespace.
Implemented structurally over the character list (Lean's own
`String.trim` is not used so that concrete instances reduce);
`Char.isWhitespace` stands in for the JS whitespace class. -/
def strTrim (s : String) : String :=
  String.mk
    (((s.data.dropWhile fun c => c.isWhitespace).reverse.dropWhile
        fun c => c.isWhitespace).reverse)

/-- The fallback `createSimplePdf(text)`.  The first argument is the JS
`text` parameter (`none` = `null`/`undefined`); `dateStr` stands for
`new Date().toISOString()`.  Returns the produced buffer as a string:
empty when `!text || text.trim().length === 0`, otherwise the template
literal with `text` and the date spliced in.  The function's own
`try/catch` returns an empty buffer on error, so it never throws. -/
def createSimplePdf (text : Option String) (dateStr : String) : String :=
  match text with
  | none => ""
  | some t =>
      if t = "" ∨ strTrim t = "" then ""
      else
        "\nPDF Content:\nAssignment Solution\n\n" ++ t ++
          "\n\nGenerated by Assignment Solver\nDate: " ++ dateStr ++ "\n"

/-- Value of one hex digit, if the character is one. -/
def hexDigitVal (c : Char) : Option Nat :=
  if '0' ≤ c ∧ c ≤ '9' then some (c.toNat - '0'.toNat)
  else if 'a' ≤ c ∧ c ≤ 'f' then some (c.toNat - 'a'.toNat + 10)
  else if 'A' ≤ c ∧ c ≤ 'F' then some (c.toNat - 'A'.toNat + 10)
  else none

/-- Byte list produced by Node's hex decoding: whole pairs of hex digits,
stopping at the first invalid pair or dangling digit (never throwing). -/
def hexDecodeAux : List Char → List Char
  | c1 :: c2 :: rest =>
      match hexDigitVal c1, hexDigitVal c2 with
      | some hi, some lo => Char.ofNat (16 * hi + lo) :: hexDecodeAux rest
      | _, _ => []
  | _ => []

/-- `Buffer.from(s, 'hex')` for a string argument. -/
def hexDecode (s : String) : String :=
  String.mk (hexDecodeAux s.data)

/-- Outcome of `JSON.parse(solutionText)` in the close callback, as far as
the callback observes it:
* `fail`: `JSON.parse` threw, so the callback builds
  `{ solutionText: solutionText.trim() }` instead;
* `null`: the input parsed to JSON `null` (e.g. the literal `null`), on
  which the subsequent property access `parsedResult.pdfBytes` throws a
  TypeError;
* `val st pb`: the input parsed to a non-null value; `st`/`pb` are
  `some x` exactly when `parsedResult.solutionText` /
  `parsedResult.pdfBytes` is a truthy string `x`.  Absent fields, falsy
  field values and non-object parses (numbers, strings, booleans, whose
  property reads yield `undefined`) are all `none`, since the callback
  only tests these fields for truthiness and falls back identically. -/
inductive ParseOutcome where
  | fail
  | null
  | val (solutionText : Option String) (pdfBytes : Option String)
deriving DecidableEq

/-- The `pythonProcess.on('close', ...)` callback of
`solveAssignmentAsync`, acting on the solution document it fetched.
`parse` is the `JSON.parse` oracle (applied to the accumulated stdout),
`code` the subprocess exit code, `stdout`/`stderr` the accumulated output
streams, `elapsed` the value of `Date.now() - startTime`, and `dateStr`
feeds `createSimplePdf`.  Returns `none` when the callback throws before
saving (leaving the document untouched — this happens on a JSON-`null`
parse, where a property access on `null` throws and the surrounding
`catch (dbError)` swallows the error), otherwise the saved document. -/
def processClose (parse : String → ParseOutcome) (code : Int)
    (stdout stderr : String) (elapsed : Nat) (dateStr : String)
    (sol : Solution) : Option Solution :=
  if code = 0 ∧ strTrim stdout ≠ "" then
    match parse stdout with
    | ParseOutcome.null => none
    | ParseOutcome.fail =>
        let text := strTrim stdout
        let pdfBuffer := createSimplePdf (some text) dateStr
        some { sol with
          solutionText := some text
          solutionPdf :=
            if pdfBuffer.length > 0 then some pdfBuffer else sol.solutionPdf
          status := Status.completed
          processingTime := elapsed }
    | ParseOutcome.val st pb =>
        let text := st.getD stdout
        let pdfBuffer :=
          match pb with
          | some hx => hexDecode hx
          | none => createSimplePdf (some text) dateStr
        some { sol with
          solutionText := some text
          solutionPdf :=
            if pdfBuffer.length > 0 then some pdfBuffer else sol.solutionPdf
          status := Status.completed
          processingTime := elapsed }
  else
    some { sol with
      status := Status.failed
      solutionText :=
        some ("Solving failed: " ++ (if stderr = "" then "Unknown error" else stderr))
      processingTime := elapsed }

/-- How one run of `solveAssignmentAsync` for a given solution document can
end.  At most one of these happens per document: either nothing has
happened yet (`pending`), the spawned process closed and the close
callback ran (`closed`), or the outer `try` of `solveAssignmentAsync`
threw before the process produced events (`asyncError`, e.g. a missing
`GEMINI_API_KEY`). -/
inductive SolveOutcome where
  | pending
  | closed (parse : String → ParseOutcome) (code : Int)
      (stdout stderr : String) (elapsed : Nat) (dateStr : String)
  | asyncError (message : String) (elapsed : Nat)

/-- The document after the solving attempt `o` ran against `sol`.  A close
callback that threw without saving (`processClose … = none`) leaves the
document as it was. -/
def finalSolution (sol : Solution) : SolveOutcome → Solution
  | SolveOutcome.pending => sol
  | SolveOutcome.closed parse code stdout stderr elapsed dateStr =>
      (processClose parse code stdout stderr elapsed dateStr sol).getD sol
  | SolveOutcome.asyncError msg elapsed =>
      { sol with
        status := Status.failed
        solutionText := some ("Solving failed: " ++ msg)
        processingTime := elapsed }

/-- The JSON object built by the instance method
`solutionSchema.methods.getSummary`. -/
structure Summary where
  id : Nat
  assignmentTitle : String
  courseName : String
  solvedAt : Nat
  status : Status
  processingTime : Nat
deriving DecidableEq

/-- Instance method `getSummary` of the schema. -/
def getSummary (s : Solution) : Summary :=
  { id := s.id
    assignmentTitle := s.assignmentTitle
    courseName := s.courseName
    solvedAt := s.solvedAt
    status := s.status
    processingTime := s.processingTime }

/-- The `sort({ solvedAt: -1 })` order: `a` comes before `b` when
`a.solvedAt ≥ b.solvedAt`. -/
def solvedAtDesc (a b : Solution) : Prop := b.solvedAt ≤ a.solvedAt

instance : DecidableRel solvedAtDesc := fun a b => Nat.decLe b.solvedAt a.solvedAt

instance : IsTotal Solution solvedAtDesc := ⟨fun a b => Nat.le_total b.solvedAt a.solvedAt⟩

instance : IsTrans Solution solvedAtDesc := ⟨fun _ _ _ hab hbc => Nat.le_trans hbc hab⟩

/-- MongoDB `cursor.limit(n)` semantics: `limit(0)` is equivalent to
setting no limit at all, and a negative limit returns up to `|n|`
documents (closing the cursor early). -/
def mongoLimit (n : Int) (xs : List Solution) : List Solution :=
  if n = 0 then xs else xs.take n.natAbs

/-- The projection `.select('-solutionPdf')`: the PDF field is excluded
from each returned document. -/
def stripPdf (s : Solution) : Solution := { s with solutionPdf := none }

/-- Static `solutionSchema.statics.findUserSolutions`:
`find({ userId }).sort({ solvedAt: -1 }).limit(limit).select('-solutionPdf')`. -/
def findUserSolutions (store : List Solution) (userId : Nat) (limit : Int) :
    List Solution :=
  (mongoLimit limit
      (List.insertionSort solvedAtDesc
        (store.filter fun s => s.userId = userId))).map stripPdf

/-- JS `parseInt(s)` (radix 10): skip leading whitespace, read an optional
sign and then the longest digit prefix; `none` stands for `NaN` (no
digits).  The `0x`/`0X` hex-prefix behaviour of `parseInt` is not
modelled; no claim exercises it. -/
def jsParseInt (s : String) : Option Int :=
  let cs := s.data.dropWhile (fun c => c.isWhitespace)
  let signAndRest : Int × List Char :=
    match cs with
    | '-' :: rest => (-1, rest)
    | '+' :: rest => (1, rest)
    | _ => (1, cs)
  let ds := signAndRest.2.takeWhile (fun c => c.isDigit)
  if ds.isEmpty then none
  else some (signAndRest.1 * (ds.foldl (fun n c => 10 * n + (c.toNat - '0'.toNat)) 0 : Nat))

/-- The limit used by GET /solutions: `parseInt(req.query.limit) || 10`.
`parseInt` of an absent parameter is `NaN`, and both `NaN` and `0` are
falsy, so those give 10. -/
def effectiveLimit (limitQuery : Option String) : Int :=
  match limitQuery.bind jsParseInt with
  | none => 10
  | some n => if n = 0 then 10 else n

/-- The GET /solutions handler: `findUserSolutions(user._id, limit)`
followed by `solutions.map(s => s.getSummary())`. -/
def getSolutionsRoute (store : List Solution) (userId : Nat)
    (limitQuery : Option String) : List Summary :=
  (findUserSolutions store userId (effectiveLimit limitQuery)).map getSummary

/-- What one `assignmentService.getSolution` fetch inside the frontend
poll loop can yield: a successful response carrying the solution's
status, a response with `success` false, or a thrown error. -/
inductive FetchOutcome where
  | ok (status : Status)
  | notSuccess
  | thrown
deriving DecidableEq

/-- How a run of `pollSolutionStatus` ends: the success message
(status `completed`), the failure message (status `failed`), the
"taking longer than expected" message, or stopping with no message and
no rescheduled poll. -/
inductive PollResult where
  | successMsg
  | failedMsg
  | longerMsg
  | silentStop
deriving DecidableEq

/-- `const maxAttempts = 30` of `pollSolutionStatus`. -/
def maxAttempts : Nat := 30

/-- The 10000 ms delay passed to `setTimeout(poll, 10000)` between
polling attempts. -/
def pollIntervalMs : Nat := 10000

/-- The 5000 ms delay of the initial `setTimeout(poll, 5000)`. -/
def initialPollDelayMs : Nat := 5000

/-- The inner `poll` closure of `pollSolutionStatus`.  `outcomes a` is
what the fetch of attempt number `a` (1-based, matching the
pre-incremented `attempts` counter) yields; `attempts` is the counter
value before this call; the fuel argument dominates the remaining
attempts (`pollRun` supplies `maxAttempts`, which suffices because the
loop only re-enters while `attempts < maxAttempts`).  Returns the way
the loop ended and the total number of fetch attempts made. -/
def pollAux (outcomes : Nat → FetchOutcome) (attempts : Nat) :
    Nat → PollResult × Nat
  | 0 => (PollResult.silentStop, attempts)
  | fuel + 1 =>
    let a := attempts + 1
    match outcomes a with
    | FetchOutcome.ok Status.completed => (PollResult.successMsg, a)
    | FetchOutcome.ok Status.failed => (PollResult.failedMsg, a)
    | FetchOutcome.ok Status.processing =>
        if a < maxAttempts then pollAux outcomes a fuel
        else (PollResult.longerMsg, a)
    | FetchOutcome.notSuccess =>
        if a ≥ maxAttempts then (PollResult.longerMsg, a)
        else (PollResult.silentStop, a)
    | FetchOutcome.thrown =>
        if a < maxAttempts then pollAux outcomes a fuel
        else (PollResult.silentStop, a)

/-- A whole run of `pollSolutionStatus` over the fetch outcomes
`outcomes`. -/
def pollRun (outcomes : Nat → FetchOutcome) : PollResult × Nat :=
  pollAux outcomes 0 maxAttempts

/-! Concrete data used to instantiate theorems. -/

/-- A concrete freshly created document, as the POST /solve handler builds
it. -/
def sampleSolution : Solution :=
  { id := 1
    userId := 7
    assignmentId := "a1"
    assignmentTitle := "T"
    courseId := "c1"
    courseName := "C"
    solutionText := none
    solutionPdf := none
    solvedAt := 100
    status := Status.processing
    processingTime := 0
    materials := [] }

/-- A `JSON.parse` oracle agreeing with JS on the inputs it is applied to
in this file: the literal `null` (possibly whitespace-padded) parses to
JSON `null`; the other inputs used with this oracle are not valid JSON,
so `JSON.parse` throws on them. -/
def nullParseOracle (s : String) : ParseOutcome :=
  if strTrim s = "null" then ParseOutcome.null else ParseOutcome.fail

/-- A concrete well-formed POST /solve request body. -/
def sampleRequest : SolveRequest :=
  { assignmentId := some "a1"
    assignmentTitle := some "T"
    courseId := some "c1"
    courseName := some "C"
    materials := none }

/-- A concrete authenticated user holding a Google access token. -/
def sampleUser : ReqUser := { id := 7, googleAccessToken := some "tok" }

/-! Helper lemmas shared by several developments. -/

/-- Whenever the close callback saves the document, it saves it with
status `completed` or `failed`, never `processing`. -/
theorem processClose_some_status (parse : String → ParseOutcome) (code : Int)
    (stdout stderr : String) (elapsed : Nat) (dateStr : String)
    (sol sol' : Solution)
    (h : processClose parse code stdout stderr elapsed dateStr sol = some sol') :
    sol'.status = Status.completed ∨ sol'.status = Status.failed := by
  unfold processClose at h
  split at h
  · split at h
    · exact absurd h (by simp)
    · exact Or.inl (by cases h; rfl)
    · exact Or.inl (by cases h; rfl)
  · exact Or.inr (by cases h; rfl)

/-- The POST /solve handler either leaves the store unchanged or appends a
single fresh document whose status is `processing`. -/
theorem postSolve_store_characterization (user : ReqUser) (req : SolveRequest)
    (store : List Solution) (newId now : Nat) :
    (postSolve user req store newId now).2.1 = store ∨
    ∃ s, (postSolve user req store newId now).2.1 = store ++ [s] ∧
      s.status = Status.processing ∧ s.id = newId := by
  unfold postSolve
  split
  · exact Or.inl rfl
  · split
    · exact Or.inl rfl
    · split
      · exact Or.inl rfl
      · exact Or.inr ⟨_, rfl, rfl, rfl⟩

/-- `findOwned` returns exactly the matching document when document ids
are unique in the store. -/
theorem findOwned_eq_of_mem (store : List Solution) (userId solutionId : Nat)
    (sol : Solution) (hnodup : (store.map Solution.id).Nodup)
    (hmem : sol ∈ store) (hid : sol.id = solutionId)
    (huser : sol.userId = userId) :
    findOwned store userId solutionId = some sol := by
  induction store with
  | nil => cases hmem
  | cons s rest ih =>
      rw [List.map_cons, List.nodup_cons] at hnodup
      rcases List.mem_cons.mp hmem with heq | hrest
      · subst heq
        unfold findOwned
        rw [List.find?_cons_of_pos _ (by simp [hid, huser])]
      · by_cases hs : s.id = solutionId ∧ s.userId = userId
        · exfalso
          exact hnodup.1 (List.mem_map.mpr ⟨sol, hrest, hid.trans hs.1.symm⟩)
        · unfold findOwned
          rw [List.find?_cons_of_neg _ (by simpa using hs)]
          exact ih hnodup.2 hrest

/-- `findOwned` finds nothing when no document matches both the id and the
user. -/
theorem findOwned_eq_none (store : List Solution) (userId solutionId : Nat)
    (hnone : ∀ sol ∈ store, ¬ (sol.id = solutionId ∧ sol.userId = userId)) :
    findOwned store userId solutionId = none := by
  unfold findOwned
  rw [List.find?_eq_none]
  intro x hx
  simpa using hnone x hx

/-! Claim theorems. -/

/-- C1: Every Solution record is created with status 'processing' (the
only creation site is the POST /solve handler, and the schema enum admits
only the three values), and the single solving attempt attached to a
record can change the status at most once, from 'processing' to either
'completed' or 'failed'; no operation moves a record back to 'processing'
or between the two terminal values.  A record freshly added by the
handler (in the store after, not before) has status 'processing', and
after its solving attempt ends in any way the record either is untouched
and still 'processing', or holds one of the two terminal statuses. -/
theorem c1_status_lifecycle (user : ReqUser) (req : SolveRequest)
    (store : List Solution) (newId now : Nat) (sol : Solution)
    (hmem : sol ∈ (postSolve user req store newId now).2.1)
    (hnew : sol ∉ store) :
    sol.status = Status.processing ∧
    ∀ o : SolveOutcome,
      (finalSolution sol o = sol ∧
        (finalSolution sol o).status = Status.processing) ∨
      (finalSolution sol o).status = Status.completed ∨
      (finalSolution sol o).status = Status.failed := by
  have hstat : sol.status = Status.processing := by
    rcases postSolve_store_characterization user req store newId now with
      h | ⟨s, hs, hstatus, _⟩
    · rw [h] at hmem
      exact absurd hmem hnew
    · rw [hs] at hmem
      rcases List.mem_append.mp hmem with h1 | h1
      · exact absurd h1 hnew
      · rw [List.mem_singleton.mp h1]
        exact hstatus
  refine ⟨hstat, fun o => ?_⟩
  cases o with
  | pending => exact Or.inl ⟨rfl, hstat⟩
  | closed parse code stdout stderr elapsed dateStr =>
      cases h : processClose parse code stdout stderr elapsed dateStr sol with
      | none =>
          exact Or.inl ⟨by simp [finalSolution, h], by simp [finalSolution, h, hstat]⟩
      | some sol' =>
          rcases processClose_some_status _ _ _ _ _ _ _ _ h with h1 | h1
          · exact Or.inr (Or.inl (by simpa [finalSolution, h] using h1))
          · exact Or.inr (Or.inr (by simpa [finalSolution, h] using h1))
  | asyncError msg elapsed => exact Or.inr (Or.inr rfl)

/-- Witness for C1 at a concrete request: the record the handler appends
to an empty store is `sampleSolution`, its status is 'processing', and a
pending attempt leaves it 'processing'. -/
theorem c1_status_lifecycle_witness :
    sampleSolution.status = Status.processing ∧
    ((finalSolution sampleSolution SolveOutcome.pending = sampleSolution ∧
        (finalSolution sampleSolution SolveOutcome.pending).status =
          Status.processing) ∨
      (finalSolution sampleSolution SolveOutcome.pending).status =
          Status.completed ∨
      (finalSolution sampleSolution SolveOutcome.pending).status =
          Status.failed) := by
  have h := c1_status_lifecycle sampleUser sampleRequest [] 1 100 sampleSolution
    (by decide) (by decide)
  exact ⟨h.1, h.2 SolveOutcome.pending⟩

/-- C2: For a POST /solve request whose four required fields are all
present (truthy), whose user holds a Google access token, and whose
assignment is not already solved, the handler appends one new Solution
record with status 'processing' and responds with success, the new
record's id and status 'processing' — the response is computed by the
handler itself, which does not take the subprocess outcome as an input,
so it does not wait for the subprocess to exit.  If any required field is
missing the handler responds 400 and the store is unchanged. -/
theorem c2_post_solve_spec (user : ReqUser) (req : SolveRequest)
    (store : List Solution) (newId now : Nat) :
    (jsTruthy req.assignmentId ∧ jsTruthy req.assignmentTitle ∧
        jsTruthy req.courseId ∧ jsTruthy req.courseName →
      jsTruthy user.googleAccessToken →
      isAssignmentSolved store user.id (req.assignmentId.getD "") = none →
      (postSolve user req store newId now).1 =
          SolveResponse.started newId Status.processing ∧
        (postSolve user req store newId now).2.2 = true ∧
        ∃ sol, (postSolve user req store newId now).2.1 = store ++ [sol] ∧
          sol.id = newId ∧ sol.userId = user.id ∧
          sol.status = Status.processing) ∧
    (¬ (jsTruthy req.assignmentId ∧ jsTruthy req.assignmentTitle ∧
        jsTruthy req.courseId ∧ jsTruthy req.courseName) →
      postSolve user req store newId now =
        (SolveResponse.badRequest, store, false)) := by
  constructor
  · intro hf ht hnone
    unfold postSolve
    rw [if_neg (not_not_intro hf), hnone]
    simp only
    rw [if_neg (not_not_intro ht)]
    exact ⟨rfl, rfl, _, rfl, rfl, rfl, rfl⟩
  · intro hf
    unfold postSolve
    rw [if_pos hf]

/-- Witness for C2 at a concrete request against an empty store. -/
theorem c2_post_solve_spec_witness :
    (postSolve sampleUser sampleRequest [] 5 100).1 =
        SolveResponse.started 5 Status.processing ∧
      (postSolve sampleUser sampleRequest [] 5 100).2.2 = true := by
  have h := (c2_post_solve_spec sampleUser sampleRequest [] 5 100).1
    (by decide) (by decide) (by decide)
  exact ⟨h.1, h.2.1⟩

/-- A string is empty exactly when its length is zero. -/
theorem string_length_eq_zero_iff (s : String) : s.length = 0 ↔ s = "" := by
  cases s with
  | mk data =>
      constructor
      · intro h
        simp only [String.length] at h
        rw [List.length_eq_zero] at h
        rw [h]
      · intro h
        rw [h]
        rfl

/-- Under the amended C3, the text the close callback stores on the
completed path, as a function of the `JSON.parse` outcome and the raw
accumulated stdout: the parsed `solutionText` field when present and
truthy, the raw stdout when the parse succeeded without such a field,
and the trimmed stdout when the stdout was not valid JSON.  (The `null`
entry is never reached: on a JSON-`null` parse nothing is stored.) -/
def specStoredText : ParseOutcome → String → String
  | ParseOutcome.fail, raw => strTrim raw
  | ParseOutcome.null, raw => raw
  | ParseOutcome.val (some t) _, _ => t
  | ParseOutcome.val none _, raw => raw

/-- C3 counterexample: with exit code 0 and accumulated stdout the
literal "null" — which is valid JSON and trims to a non-empty string —
the claim requires the callback to mark the record 'completed'.  Instead
`JSON.parse` yields `null`, the subsequent property access
`parsedResult.pdfBytes` throws a TypeError, the surrounding
`catch (dbError)` swallows it and nothing is saved: the record keeps its
'processing' status. -/
theorem c3_close_counterexample :
    processClose nullParseOracle 0 "null" "" 42 "2026-01-01T00:00:00.000Z"
        sampleSolution = none ∧
      sampleSolution.status = Status.processing := by decide

/-- C3 (amended): when the subprocess closes, the callback marks the
Solution 'completed' exactly when the exit code is 0, the accumulated
stdout is non-empty after trimming, and the stdout does not parse to
JSON `null` (in that case a property access on `null` throws and the
record is left untouched); on the completed path it stores
`specStoredText` — the parsed solutionText field when truthy, else the
raw stdout when the parse succeeded, else the trimmed stdout.  In every
other case it marks the record 'failed' with solutionText 'Solving
failed: ' followed by the stderr output, or 'Unknown error' when stderr
is empty.  Both saving paths set processingTime to the elapsed time. -/
theorem c3_close_callback_spec (parse : String → ParseOutcome) (code : Int)
    (stdout stderr : String) (elapsed : Nat) (dateStr : String)
    (sol : Solution) :
    (code = 0 → strTrim stdout ≠ "" → parse stdout ≠ ParseOutcome.null →
      ∃ sol',
        processClose parse code stdout stderr elapsed dateStr sol = some sol' ∧
        sol'.status = Status.completed ∧
        sol'.solutionText = some (specStoredText (parse stdout) stdout) ∧
        sol'.processingTime = elapsed) ∧
    (code = 0 → strTrim stdout ≠ "" → parse stdout = ParseOutcome.null →
      processClose parse code stdout stderr elapsed dateStr sol = none) ∧
    (¬ (code = 0 ∧ strTrim stdout ≠ "") →
      ∃ sol',
        processClose parse code stdout stderr elapsed dateStr sol = some sol' ∧
        sol'.status = Status.failed ∧
        sol'.solutionText = some ("Solving failed: " ++
          (if stderr = "" then "Unknown error" else stderr)) ∧
        sol'.processingTime = elapsed) := by
  refine ⟨?_, ?_, ?_⟩
  · intro hc hs hp
    unfold processClose
    rw [if_pos ⟨hc, hs⟩]
    cases hpo : parse stdout with
    | fail => exact ⟨_, rfl, rfl, by simp [specStoredText], rfl⟩
    | null => exact absurd hpo hp
    | val st pb =>
        cases st with
        | none => exact ⟨_, rfl, rfl, by simp [specStoredText], rfl⟩
        | some t => exact ⟨_, rfl, rfl, by simp [specStoredText], rfl⟩
  · intro hc hs hp
    unfold processClose
    rw [if_pos ⟨hc, hs⟩, hp]
  · intro h
    unfold processClose
    rw [if_neg h]
    exact ⟨_, rfl, rfl, rfl, rfl⟩

/-- Witness for C3 (amended) on the completed path: exit code 0 and a
non-JSON stdout "hello". -/
theorem c3_close_callback_spec_witness :
    ∃ sol',
      processClose (fun _ => ParseOutcome.fail) 0 "hello" "" 42 "D"
          sampleSolution = some sol' ∧
      sol'.status = Status.completed ∧
      sol'.solutionText =
        some (specStoredText ((fun _ => ParseOutcome.fail) "hello") "hello") ∧
      sol'.processingTime = 42 :=
  (c3_close_callback_spec (fun _ => ParseOutcome.fail) 0 "hello" "" 42 "D"
      sampleSolution).1 rfl (by decide) (by decide)

/-- A completed Solution for the same user and assignment as
`sampleRequest`. -/
def sampleCompleted : Solution :=
  { sampleSolution with id := 2, status := Status.completed }

/-- C4: when the requesting user already has a completed Solution for the
request's assignmentId (and the request carries the four required fields,
which the handler validates before the duplicate check), POST /solve
responds with success and alreadySolved carrying the existing solution's
id, creates no record, spawns no subprocess and leaves the store
unchanged — so each persisted Solution still corresponds to the one
attempt that created it. -/
theorem c4_already_solved_frame (user : ReqUser) (req : SolveRequest)
    (store : List Solution) (newId now : Nat) (ex : Solution)
    (hfields : jsTruthy req.assignmentId ∧ jsTruthy req.assignmentTitle ∧
      jsTruthy req.courseId ∧ jsTruthy req.courseName)
    (hex : isAssignmentSolved store user.id (req.assignmentId.getD "") =
      some ex) :
    postSolve user req store newId now =
      (SolveResponse.alreadySolved ex.id, store, false) ∧
    ex ∈ store ∧ ex.userId = user.id ∧
    ex.assignmentId = req.assignmentId.getD "" ∧
    ex.status = Status.completed := by
  have hexf : store.find?
      (fun s => decide (s.userId = user.id ∧
        s.assignmentId = req.assignmentId.getD "" ∧
        s.status = Status.completed)) = some ex := hex
  have hmem : ex ∈ store := List.mem_of_find?_eq_some hexf
  have hp : ex.userId = user.id ∧ ex.assignmentId = req.assignmentId.getD "" ∧
      ex.status = Status.completed := by
    simpa using List.find?_some hexf
  refine ⟨?_, hmem, hp.1, hp.2.1, hp.2.2⟩
  unfold postSolve
  rw [if_neg (not_not_intro hfields), hex]

/-- Witness for C4: a store holding one completed solution for the
requested assignment. -/
theorem c4_already_solved_frame_witness :
    postSolve sampleUser sampleRequest [sampleCompleted] 9 200 =
      (SolveResponse.alreadySolved 2, [sampleCompleted], false) :=
  (c4_already_solved_frame sampleUser sampleRequest [sampleCompleted] 9 200
      sampleCompleted (by decide) (by decide)).1

/-- C5: GET /solution/:solutionId returns the seven listed fields of the
solution exactly when a Solution with that id exists and its userId is
the authenticated user's id; in every other case it responds 404
'Solution not found'.  The positive direction assumes ids are unique in
the store (they are Mongo ObjectIds). -/
theorem c5_get_solution_spec (store : List Solution)
    (userId solutionId : Nat) :
    ((store.map Solution.id).Nodup →
      ∀ sol ∈ store, sol.id = solutionId → sol.userId = userId →
      getSolutionRoute store userId solutionId =
        SolutionResponse.found sol.id sol.assignmentTitle sol.courseName
          sol.status sol.solutionText sol.solvedAt sol.processingTime) ∧
    ((∀ sol ∈ store, ¬ (sol.id = solutionId ∧ sol.userId = userId)) →
      getSolutionRoute store userId solutionId =
        SolutionResponse.notFound) := by
  constructor
  · intro hnodup sol hmem hid huser
    unfold getSolutionRoute
    rw [findOwned_eq_of_mem store userId solutionId sol hnodup hmem hid huser]
  · intro hnone
    unfold getSolutionRoute
    rw [findOwned_eq_none store userId solutionId hnone]

/-- Witness for C5: retrieving the one stored solution of its owner. -/
theorem c5_get_solution_spec_witness :
    getSolutionRoute [sampleSolution] 7 1 =
      SolutionResponse.found 1 "T" "C" Status.processing none 100 0 :=
  (c5_get_solution_spec [sampleSolution] 7 1).1 (by decide) sampleSolution
    (by decide) (by decide) (by decide)

/-- C6: GET /solution/:solutionId/pdf sends the stored bytes with
Content-Type application/pdf exactly when the solution exists for the
authenticated user, is 'completed' and has a non-empty stored PDF; when
the record exists but the status is not 'completed' or the PDF payload
is missing (`null`) or empty it responds 400 'Solution PDF not
available'; when no matching record exists it responds 404.  The
positive directions assume ids are unique in the store. -/
theorem c6_get_pdf_spec (store : List Solution) (userId solutionId : Nat) :
    ((store.map Solution.id).Nodup →
      ∀ sol ∈ store, sol.id = solutionId → sol.userId = userId →
      (∀ bytes, sol.status = Status.completed → sol.solutionPdf = some bytes →
        bytes ≠ "" →
        getSolutionPdfRoute store userId solutionId =
          PdfResponse.sendPdf "application/pdf"
            (sol.assignmentTitle ++ "_solution.pdf") bytes) ∧
      (sol.status ≠ Status.completed ∨ sol.solutionPdf = none ∨
          sol.solutionPdf = some "" →
        getSolutionPdfRoute store userId solutionId =
          PdfResponse.notAvailable)) ∧
    ((∀ sol ∈ store, ¬ (sol.id = solutionId ∧ sol.userId = userId)) →
      getSolutionPdfRoute store userId solutionId = PdfResponse.notFound) := by
  constructor
  · intro hnodup sol hmem hid huser
    have hfind :=
      findOwned_eq_of_mem store userId solutionId sol hnodup hmem hid huser
    constructor
    · intro bytes hst hpdf hne
      unfold getSolutionPdfRoute
      rw [hfind]
      have hlen : bytes.length ≠ 0 :=
        fun h => hne ((string_length_eq_zero_iff bytes).mp h)
      simp [hst, hpdf, hlen]
    · intro hcase
      unfold getSolutionPdfRoute
      rw [hfind]
      by_cases hst : sol.status = Status.completed
      · rcases hcase with h | h | h
        · exact absurd hst h
        · simp [hst, h]
        · simp [hst, h]
      · simp [hst]
  · intro hnone
    unfold getSolutionPdfRoute
    rw [findOwned_eq_none store userId solutionId hnone]

/-- A completed Solution with a stored PDF payload. -/
def samplePdfSolution : Solution :=
  { sampleSolution with status := Status.completed, solutionPdf := some "PDF" }

/-- Witness for C6: downloading the PDF of a completed solution with a
non-empty stored payload. -/
theorem c6_get_pdf_spec_witness :
    getSolutionPdfRoute [samplePdfSolution] 7 1 =
      PdfResponse.sendPdf "application/pdf" "T_solution.pdf" "PDF" :=
  ((c6_get_pdf_spec [samplePdfSolution] 7 1).1 (by decide) samplePdfSolution
      (by decide) (by decide) (by decide)).1 "PDF" (by decide) (by decide)
    (by decide)

/-- Under the amended C7: whether the poll loop schedules another attempt
after attempt number `a` ended with outcome `o` — only a successful
response with status still 'processing', or a thrown fetch error, is
retried, and only while fewer than `maxAttempts` attempts were made. -/
def pollContinues (o : FetchOutcome) (a : Nat) : Prop :=
  (o = FetchOutcome.ok Status.processing ∨ o = FetchOutcome.thrown) ∧
    a < maxAttempts

instance (o : FetchOutcome) (a : Nat) : Decidable (pollContinues o a) := by
  unfold pollContinues
  infer_instance

/-- Under the amended C7: the way the loop ends as a function of the
outcome of its last fetch attempt and that attempt's number.  The
'processing' and 'thrown' rows are reached only when the attempt budget
is exhausted. -/
def pollStopResult (o : FetchOutcome) (a : Nat) : PollResult :=
  match o with
  | FetchOutcome.ok Status.completed => PollResult.successMsg
  | FetchOutcome.ok Status.failed => PollResult.failedMsg
  | FetchOutcome.ok Status.processing => PollResult.longerMsg
  | FetchOutcome.notSuccess =>
      if a ≥ maxAttempts then PollResult.longerMsg else PollResult.silentStop
  | FetchOutcome.thrown => PollResult.silentStop

/-- Behaviour of the inner poll closure from any reachable state: it
performs at least one further attempt, never exceeds the attempt budget,
every attempt before the last one satisfied the continuation condition,
the last one does not, and the produced result is `pollStopResult` of the
last attempt. -/
theorem pollAux_spec (outcomes : Nat → FetchOutcome) :
    ∀ fuel attempts, maxAttempts ≤ attempts + fuel → attempts < maxAttempts →
    attempts < (pollAux outcomes attempts fuel).2 ∧
    (pollAux outcomes attempts fuel).2 ≤ maxAttempts ∧
    (∀ a, attempts < a → a < (pollAux outcomes attempts fuel).2 →
      pollContinues (outcomes a) a) ∧
    ¬ pollContinues (outcomes (pollAux outcomes attempts fuel).2)
        (pollAux outcomes attempts fuel).2 ∧
    (pollAux outcomes attempts fuel).1 =
      pollStopResult (outcomes (pollAux outcomes attempts fuel).2)
        (pollAux outcomes attempts fuel).2 := by
  intro fuel
  induction fuel with
  | zero =>
      intro attempts hfuel hatt
      omega
  | succ fuel ih =>
      intro attempts hfuel hatt
      have hstep :
          pollAux outcomes attempts (fuel + 1) =
            match outcomes (attempts + 1) with
            | FetchOutcome.ok Status.completed =>
                (PollResult.successMsg, attempts + 1)
            | FetchOutcome.ok Status.failed =>
                (PollResult.failedMsg, attempts + 1)
            | FetchOutcome.ok Status.processing =>
                if attempts + 1 < maxAttempts then pollAux outcomes (attempts + 1) fuel
                else (PollResult.longerMsg, attempts + 1)
            | FetchOutcome.notSuccess =>
                if attempts + 1 ≥ maxAttempts then (PollResult.longerMsg, attempts + 1)
                else (PollResult.silentStop, attempts + 1)
            | FetchOutcome.thrown =>
                if attempts + 1 < maxAttempts then pollAux outcomes (attempts + 1) fuel
                else (PollResult.silentStop, attempts + 1) := rfl
      cases ho : outcomes (attempts + 1) with
      | ok st =>
          cases st with
          | completed =>
              have hred : pollAux outcomes attempts (fuel + 1) =
                  (PollResult.successMsg, attempts + 1) := by
                rw [hstep, ho]
              rw [hred]
              refine ⟨by omega, by omega, fun a h1 h2 => by omega, ?_, ?_⟩
              · rw [ho]
                rintro ⟨h | h, -⟩ <;> exact absurd h (by decide)
              · rw [ho]
                rfl
          | failed =>
              have hred : pollAux outcomes attempts (fuel + 1) =
                  (PollResult.failedMsg, attempts + 1) := by
                rw [hstep, ho]
              rw [hred]
              refine ⟨by omega, by omega, fun a h1 h2 => by omega, ?_, ?_⟩
              · rw [ho]
                rintro ⟨h | h, -⟩ <;> exact absurd h (by decide)
              · rw [ho]
                rfl
          | processing =>
              by_cases hlt : attempts + 1 < maxAttempts
              · have hred : pollAux outcomes attempts (fuel + 1) =
                    pollAux outcomes (attempts + 1) fuel := by
                  rw [hstep, ho]
                  exact if_pos hlt
                rw [hred]
                have h := ih (attempts + 1) (by omega) hlt
                refine ⟨by omega, h.2.1, ?_, h.2.2.2.1, h.2.2.2.2⟩
                intro a h1 h2
                rcases Nat.lt_or_ge (attempts + 1) a with ha | ha
                · exact h.2.2.1 a ha h2
                · have haa : a = attempts + 1 := by omega
                  subst haa
                  rw [ho]
                  exact ⟨Or.inl rfl, hlt⟩
              · have hred : pollAux outcomes attempts (fuel + 1) =
                    (PollResult.longerMsg, attempts + 1) := by
                  rw [hstep, ho]
                  exact if_neg hlt
                rw [hred]
                refine ⟨by omega, by omega, fun a h1 h2 => by omega, ?_, ?_⟩
                · rw [ho]
                  rintro ⟨-, h⟩
                  omega
                · rw [ho]
                  rfl
      | notSuccess =>
          by_cases hge : attempts + 1 ≥ maxAttempts
          · have hred : pollAux outcomes attempts (fuel + 1) =
                (PollResult.longerMsg, attempts + 1) := by
              rw [hstep, ho]
              exact if_pos hge
            rw [hred]
            refine ⟨by omega, by omega, fun a h1 h2 => by omega, ?_, ?_⟩
            · rw [ho]
              rintro ⟨h | h, -⟩ <;> exact absurd h (by decide)
            · rw [ho]
              simp [pollStopResult, hge]
          · have hred : pollAux outcomes attempts (fuel + 1) =
                (PollResult.silentStop, attempts + 1) := by
              rw [hstep, ho]
              exact if_neg hge
            rw [hred]
            refine ⟨by omega, by omega, fun a h1 h2 => by omega, ?_, ?_⟩
            · rw [ho]
              rintro ⟨h | h, -⟩ <;> exact absurd h (by decide)
            · rw [ho]
              simp [pollStopResult, hge]
      | thrown =>
          by_cases hlt : attempts + 1 < maxAttempts
          · have hred : pollAux outcomes attempts (fuel + 1) =
                pollAux outcomes (attempts + 1) fuel := by
              rw [hstep, ho]
              exact if_pos hlt
            rw [hred]
            have h := ih (attempts + 1) (by omega) hlt
            refine ⟨by omega, h.2.1, ?_, h.2.2.2.1, h.2.2.2.2⟩
            intro a h1 h2
            rcases Nat.lt_or_ge (attempts + 1) a with ha | ha
            · exact h.2.2.1 a ha h2
            · have haa : a = attempts + 1 := by omega
              subst haa
              rw [ho]
              exact ⟨Or.inr rfl, hlt⟩
          · have hred : pollAux outcomes attempts (fuel + 1) =
                (PollResult.silentStop, attempts + 1) := by
              rw [hstep, ho]
              exact if_neg hlt
            rw [hred]
            refine ⟨by omega, by omega, fun a h1 h2 => by omega, ?_, ?_⟩
            · rw [ho]
              rintro ⟨-, h⟩
              omega
            · rw [ho]
              rfl

/-- C7 counterexample: when every fetch attempt throws (for instance
because the backend is unreachable), the loop does make all 30 attempts
and then stops, but the `catch` path sets no message at attempt 30: the
run ends silently instead of reporting that solving is taking longer
than expected, contrary to the claim. -/
theorem c7_poll_counterexample :
    pollRun (fun _ => FetchOutcome.thrown) = (PollResult.silentStop, 30) ∧
      PollResult.silentStop ≠ PollResult.longerMsg := by decide

/-- C7 (amended): `pollSolutionStatus` always terminates, making between
1 and 30 fetch attempts, re-polling (at the 10-second interval) exactly
after attempts that returned a successful response with status
'processing' or threw, while fewer than 30 attempts were made; it stops
at the first attempt whose fetched status is 'completed' (reporting
success) or 'failed' (reporting an error); a response with success false
stops it — silently before attempt 30, with the "taking longer than
expected" message at attempt 30, the message also shown when attempt 30
finds status still 'processing'; when attempt 30 throws the loop stops
with no message at all. -/
theorem c7_poll_spec (outcomes : Nat → FetchOutcome) :
    1 ≤ (pollRun outcomes).2 ∧
    (pollRun outcomes).2 ≤ maxAttempts ∧
    (∀ a, 1 ≤ a → a < (pollRun outcomes).2 → pollContinues (outcomes a) a) ∧
    ¬ pollContinues (outcomes (pollRun outcomes).2) (pollRun outcomes).2 ∧
    (pollRun outcomes).1 =
      pollStopResult (outcomes (pollRun outcomes).2) (pollRun outcomes).2 := by
  have h := pollAux_spec outcomes maxAttempts 0 (by omega) (by decide)
  exact ⟨h.1, h.2.1, fun a h1 h2 => h.2.2.1 a h1 h2, h.2.2.2.1, h.2.2.2.2⟩

/-- Witness for C7 (amended): a solution that is already completed at the
first poll makes the loop stop after one attempt with the success
message. -/
theorem c7_poll_spec_witness :
    (pollRun fun _ => FetchOutcome.ok Status.completed) =
      (PollResult.successMsg, 1) := by
  have h := c7_poll_spec fun _ => FetchOutcome.ok Status.completed
  have h2 : (pollRun fun _ => FetchOutcome.ok Status.completed).2 = 1 := by
    by_contra hne
    have h1 := h.2.2.1 1 (by omega) (by omega)
    rcases h1.1 with hc | hc <;> cases hc
  have h1 := h.2.2.2.2
  rw [h2] at h1
  have : (pollRun fun _ => FetchOutcome.ok Status.completed).1 =
      PollResult.successMsg := h1
  rw [Prod.ext_iff]
  exact ⟨this, h2⟩

/-- C8 counterexample: the limit 0 is non-negative, but MongoDB's
`limit(0)` means "no limit", so `findUserSolutions(userId, 0)` on a store
holding one solution of that user returns that solution — more than the
"at most 0" the claim requires. -/
theorem c8_limit_counterexample :
    ¬ (findUserSolutions [sampleSolution] sampleSolution.userId 0).length ≤ 0 := by
  decide

/-- C8 (amended): for every user and every positive limit,
`findUserSolutions` returns at most `limit` solutions (for limit 0,
Mongo's `limit(0)` disables the limit instead), each belonging to the
user and with the solutionPdf field excluded, ordered by solvedAt
descending; GET /solutions uses limit 10 when the limit query parameter
is absent or not parseable as an integer, and returns exactly the
summaries (id, assignmentTitle, courseName, solvedAt, status,
processingTime) of the listed solutions. -/
theorem c8_find_user_solutions_spec (store : List Solution) (userId : Nat)
    (limit : Int) (limitQuery : Option String) :
    (0 < limit → (findUserSolutions store userId limit).length ≤ limit.natAbs) ∧
    (∀ s ∈ findUserSolutions store userId limit,
      s.userId = userId ∧ s.solutionPdf = none) ∧
    List.Sorted solvedAtDesc (findUserSolutions store userId limit) ∧
    getSolutionsRoute store userId limitQuery =
      (findUserSolutions store userId (effectiveLimit limitQuery)).map
        getSummary ∧
    (limitQuery = none ∨
        (∃ q, limitQuery = some q ∧ jsParseInt q = none) →
      effectiveLimit limitQuery = 10) := by
  refine ⟨?_, ?_, ?_, rfl, ?_⟩
  · intro hpos
    unfold findUserSolutions mongoLimit
    rw [if_neg (by omega)]
    rw [List.length_map, List.length_take]
    exact min_le_left _ _
  · intro s hs
    unfold findUserSolutions at hs
    rcases List.mem_map.mp hs with ⟨t, ht, rfl⟩
    have ht' : t ∈ List.insertionSort solvedAtDesc
        (store.filter fun s => s.userId = userId) := by
      unfold mongoLimit at ht
      split at ht
      · exact ht
      · exact List.mem_of_mem_take ht
    have ht'' := (List.mem_insertionSort solvedAtDesc).mp ht'
    have hfil := List.mem_filter.mp ht''
    exact ⟨of_decide_eq_true hfil.2, rfl⟩
  · have hsorted : List.Pairwise solvedAtDesc (List.insertionSort solvedAtDesc
        (store.filter fun s => s.userId = userId)) :=
      List.sorted_insertionSort solvedAtDesc
        (store.filter fun s => s.userId = userId)
    have hsub : List.Sublist
        (mongoLimit limit (List.insertionSort solvedAtDesc
          (store.filter fun s => s.userId = userId)))
        (List.insertionSort solvedAtDesc
          (store.filter fun s => s.userId = userId)) := by
      unfold mongoLimit
      split
      · exact List.Sublist.refl _
      · exact List.take_sublist _ _
    exact (hsorted.sublist hsub).map stripPdf fun a b h => h
  · intro hq
    rcases hq with h | ⟨q, rfl, hq⟩
    · rw [h]
      rfl
    · simp [effectiveLimit, hq]

/-- Witness for C8 (amended): one stored solution, positive limit 3, and
an unparseable limit query. -/
theorem c8_find_user_solutions_spec_witness :
    (findUserSolutions [sampleSolution] 7 3).length ≤ (3 : Int).natAbs ∧
      effectiveLimit (some "abc") = 10 :=
  ⟨(c8_find_user_solutions_spec [sampleSolution] 7 3 (some "abc")).1
      (by decide),
    (c8_find_user_solutions_spec [sampleSolution] 7 3 (some "abc")).2.2.2.2
      (Or.inr ⟨"abc", rfl, by decide⟩)⟩

/-- C9: the duplicate check `isAssignmentSolved` matches only completed
solutions, so a well-formed authorized POST /solve issued while every
earlier attempt of this user for this assignmentId is still 'processing'
or has 'failed' (one such earlier attempt `prev` exists in the store)
starts a new attempt: the handler appends another Solution record and
spawns another subprocess, and the store then holds at least two records
for this user and assignmentId. -/
theorem c9_duplicate_attempts (user : ReqUser) (req : SolveRequest)
    (store : List Solution) (newId now : Nat) (prev : Solution)
    (hfields : jsTruthy req.assignmentId ∧ jsTruthy req.assignmentTitle ∧
      jsTruthy req.courseId ∧ jsTruthy req.courseName)
    (htok : jsTruthy user.googleAccessToken)
    (hprev : prev ∈ store ∧ prev.userId = user.id ∧
      prev.assignmentId = req.assignmentId.getD "" ∧
      (prev.status = Status.processing ∨ prev.status = Status.failed))
    (hnone : ∀ s ∈ store, s.userId = user.id →
      s.assignmentId = req.assignmentId.getD "" →
      s.status ≠ Status.completed) :
    (postSolve user req store newId now).1 =
        SolveResponse.started newId Status.processing ∧
      (postSolve user req store newId now).2.2 = true ∧
      (∃ sol, (postSolve user req store newId now).2.1 = store ++ [sol] ∧
        sol.userId = user.id ∧
        sol.assignmentId = req.assignmentId.getD "" ∧
        sol.status = Status.processing) ∧
      2 ≤ ((postSolve user req store newId now).2.1.filter fun s =>
          s.userId = user.id ∧
          s.assignmentId = req.assignmentId.getD "").length := by
  have hsolved : isAssignmentSolved store user.id (req.assignmentId.getD "") =
      none := by
    unfold isAssignmentSolved
    rw [List.find?_eq_none]
    intro x hx
    simp only [decide_eq_true_eq]
    rintro ⟨h1, h2, h3⟩
    exact hnone x hx h1 h2 h3
  have hstep : postSolve user req store newId now =
      (SolveResponse.started newId Status.processing,
        store ++ [{ id := newId
                    userId := user.id
                    assignmentId := req.assignmentId.getD ""
                    assignmentTitle := req.assignmentTitle.getD ""
                    courseId := req.courseId.getD ""
                    courseName := req.courseName.getD ""
                    solutionText := none
                    solutionPdf := none
                    solvedAt := now
                    status := Status.processing
                    processingTime := 0
                    materials := mapMaterials req.materials }], true) := by
    unfold postSolve
    rw [if_neg (not_not_intro hfields), hsolved]
    simp only
    rw [if_neg (not_not_intro htok)]
  rw [hstep]
  refine ⟨rfl, rfl, ⟨_, rfl, rfl, rfl, rfl⟩, ?_⟩
  rw [List.filter_append]
  have hmemf : prev ∈ store.filter fun s =>
      s.userId = user.id ∧ s.assignmentId = req.assignmentId.getD "" :=
    List.mem_filter.mpr ⟨hprev.1, by simp [hprev.2.1, hprev.2.2.1]⟩
  have h1 := List.length_pos_of_mem hmemf
  rw [List.length_append]
  simp only [List.filter_cons, List.filter_nil]
  rw [if_pos (by simp)]
  simp only [List.length_cons, List.length_nil]
  omega

/-- Witness for C9: a store holding one failed attempt for the requested
assignment; the handler starts another attempt. -/
theorem c9_duplicate_attempts_witness :
    (postSolve sampleUser sampleRequest
          [{ sampleSolution with status := Status.failed }] 9 200).1 =
        SolveResponse.started 9 Status.processing ∧
      (postSolve sampleUser sampleRequest
          [{ sampleSolution with status := Status.failed }] 9 200).2.2 =
        true := by
  have h := c9_duplicate_attempts sampleUser sampleRequest
    [{ sampleSolution with status := Status.failed }] 9 200
    { sampleSolution with status := Status.failed }
    (by decide) (by decide) (by decide) (by decide)
  exact ⟨h.1, h.2.1⟩

/-- Appending to a non-empty string on the left never yields the empty
string. -/
theorem string_append_ne_empty_left (a b : String) (ha : a ≠ "") :
    a ++ b ≠ "" := by
  intro h
  have hl := congrArg String.length h
  rw [String.length_append] at hl
  have h0 : a.length = 0 := by
    have : ("" : String).length = 0 := rfl
    omega
  exact ha ((string_length_eq_zero_iff a).mp h0)

/-- C10: `createSimplePdf` is total (its own try/catch aside, every branch
returns a buffer) and returns an empty buffer exactly when the input text
is null, empty, or whitespace-only; for non-blank text it returns a
non-empty buffer that contains the input text.  Consequently, on the
close callback's fallback path (no `pdfBytes` in the solver output) a
non-empty PDF payload is stored whenever the solution text about to be
stored is non-blank. -/
theorem c10_create_simple_pdf_spec (text : Option String) (dateStr : String) :
    (createSimplePdf text dateStr = "" ↔
      text = none ∨ ∃ t, text = some t ∧ strTrim t = "") ∧
    (∀ t, text = some t → strTrim t ≠ "" →
      createSimplePdf text dateStr ≠ "" ∧
      ∃ pre post, createSimplePdf text dateStr = pre ++ t ++ post) ∧
    (∀ (parse : String → ParseOutcome) (code : Int)
        (stdout stderr : String) (elapsed : Nat) (sol : Solution),
      code = 0 → parse stdout = ParseOutcome.fail →
      strTrim (strTrim stdout) ≠ "" →
      ∃ sol' p,
        processClose parse code stdout stderr elapsed dateStr sol =
          some sol' ∧ sol'.solutionPdf = some p ∧ p ≠ "") ∧
    (∀ (parse : String → ParseOutcome) (code : Int)
        (stdout stderr : String) (elapsed : Nat) (sol : Solution)
        (st : Option String),
      code = 0 → strTrim stdout ≠ "" →
      parse stdout = ParseOutcome.val st none →
      strTrim (st.getD stdout) ≠ "" →
      ∃ sol' p,
        processClose parse code stdout stderr elapsed dateStr sol =
          some sol' ∧ sol'.solutionPdf = some p ∧ p ≠ "") := by
  have hpdf_ne : ∀ t, strTrim t ≠ "" →
      createSimplePdf (some t) dateStr ≠ "" ∧
      ∃ pre post, createSimplePdf (some t) dateStr = pre ++ t ++ post := by
    intro t htr
    have htne : ¬ (t = "" ∨ strTrim t = "") := by
      rintro (rfl | h)
      · exact htr rfl
      · exact htr h
    have hred : createSimplePdf (some t) dateStr =
        "\nPDF Content:\nAssignment Solution\n\n" ++ t ++
          "\n\nGenerated by Assignment Solver\nDate: " ++ dateStr ++ "\n" := by
      show (if t = "" ∨ strTrim t = "" then "" else
        "\nPDF Content:\nAssignment Solution\n\n" ++ t ++
          "\n\nGenerated by Assignment Solver\nDate: " ++ dateStr ++ "\n") = _
      rw [if_neg htne]
    constructor
    · rw [hred]
      exact string_append_ne_empty_left _ _ (by
        apply string_append_ne_empty_left
        apply string_append_ne_empty_left
        apply string_append_ne_empty_left
        decide)
    · refine ⟨"\nPDF Content:\nAssignment Solution\n\n",
        "\n\nGenerated by Assignment Solver\nDate: " ++ dateStr ++ "\n", ?_⟩
      rw [hred]
      simp [String.append_assoc]
  refine ⟨?_, ?_, ?_, ?_⟩
  · constructor
    · intro h
      cases text with
      | none => exact Or.inl rfl
      | some t =>
          refine Or.inr ⟨t, rfl, ?_⟩
          by_contra htr
          exact (hpdf_ne t htr).1 h
    · rintro (rfl | ⟨t, rfl, htr⟩)
      · rfl
      · show (if t = "" ∨ strTrim t = "" then "" else
          "\nPDF Content:\nAssignment Solution\n\n" ++ t ++
            "\n\nGenerated by Assignment Solver\nDate: " ++ dateStr ++ "\n") = ""
        rw [if_pos (Or.inr htr)]
  · intro t ht htr
    rw [ht]
    exact hpdf_ne t htr
  · intro parse code stdout stderr elapsed sol hc hp htr
    have hguard : strTrim stdout ≠ "" := by
      intro h
      rw [h] at htr
      exact htr rfl
    have hbuf := hpdf_ne (strTrim stdout) htr
    have hlen : 0 < (createSimplePdf (some (strTrim stdout)) dateStr).length := by
      rcases Nat.eq_zero_or_pos (createSimplePdf (some (strTrim stdout)) dateStr).length
        with h | h
      · exact absurd ((string_length_eq_zero_iff _).mp h) hbuf.1
      · exact h
    have hred : processClose parse code stdout stderr elapsed dateStr sol =
        some { sol with
          solutionText := some (strTrim stdout)
          solutionPdf :=
            if (createSimplePdf (some (strTrim stdout)) dateStr).length > 0
            then some (createSimplePdf (some (strTrim stdout)) dateStr)
            else sol.solutionPdf
          status := Status.completed
          processingTime := elapsed } := by
      unfold processClose
      rw [if_pos ⟨hc, hguard⟩, hp]
    rw [hred]
    refine ⟨_, createSimplePdf (some (strTrim stdout)) dateStr, rfl, ?_, hbuf.1⟩
    simp only
    rw [if_pos hlen]
  · intro parse code stdout stderr elapsed sol st hc hguard hp htr
    have hbuf := hpdf_ne (st.getD stdout) htr
    have hlen : 0 < (createSimplePdf (some (st.getD stdout)) dateStr).length := by
      rcases Nat.eq_zero_or_pos (createSimplePdf (some (st.getD stdout)) dateStr).length
        with h | h
      · exact absurd ((string_length_eq_zero_iff _).mp h) hbuf.1
      · exact h
    have hred : processClose parse code stdout stderr elapsed dateStr sol =
        some { sol with
          solutionText := some (st.getD stdout)
          solutionPdf :=
            if (createSimplePdf (some (st.getD stdout)) dateStr).length > 0
            then some (createSimplePdf (some (st.getD stdout)) dateStr)
            else sol.solutionPdf
          status := Status.completed
          processingTime := elapsed } := by
      unfold processClose
      rw [if_pos ⟨hc, hguard⟩, hp]
    rw [hred]
    refine ⟨_, createSimplePdf (some (st.getD stdout)) dateStr, rfl, ?_, hbuf.1⟩
    simp only
    rw [if_pos hlen]

/-- Witness for C10 on a concrete non-blank text. -/
theorem c10_create_simple_pdf_spec_witness :
    createSimplePdf (some "hello") "D" ≠ "" ∧
    ∃ pre post, createSimplePdf (some "hello") "D" = pre ++ "hello" ++ post :=
  (c10_create_simple_pdf_spec (some "hello") "D").2.1 "hello" rfl (by decide)

end AssignmentSolver
